import Mathlib

/-!
Verification development for the authelia-gui user-store pipeline.

Shallow embedding of the mutation / persistence / propagation / guard code:
  * `app/models.py`      — record validation and normalization
  * `app/users_io.py`    — load, atomic save, backups, add/delete user
  * `app/restart.py`     — restart-vs-watch decision, health polling
  * `app/authelia_config.py` — watch-mode detection
  * `app/security.py`    — RBAC / CSRF / session middleware

Conventions of the embedding:
  * YAML documents are modeled by the inductive `Yaml` below; a parsed
    Python `dict` becomes `Yaml.map` with string keys (yaml.safe_load on
    the files in question produces string keys; duplicate keys are
    collapsed by the Python parser, so maps are assumed key-unique).
  * Python truthiness (`if not data`) is `pythonTruthy`.
  * File contents are modeled at document granularity: "byte-for-byte
    identical" becomes equality of `FileContent` values.
  * Machine-level failures (write, fsync, rename) are injected through an
    explicit `FailStep` argument.
-/

/-- YAML value, as produced by `yaml.safe_load`. -/
inductive Yaml where
  | null
  | bool (b : Bool)
  | int (n : Int)
  | str (s : String)
  | list (xs : List Yaml)
  | map (es : List (String × Yaml))
deriving Repr

/-- Python truthiness of a YAML value (`if not data: ...`). -/
def pythonTruthy : Yaml → Bool
  | .null => false
  | .bool b => b
  | .int n => n != 0
  | .str s => !(s == "")
  | .list xs => !xs.isEmpty
  | .map es => !es.isEmpty

/-- Dictionary lookup on the entry list of a `Yaml.map` (Python `dict.get`). -/
def yamlLookup (es : List (String × Yaml)) (k : String) : Option Yaml :=
  match es.find? (fun p => p.1 == k) with
  | some p => some p.2
  | none => none

/-- Lookup through a `Yaml` value: `none` when the value is not a map or
lacks the key. -/
def yamlGet (y : Yaml) (k : String) : Option Yaml :=
  match y with
  | .map es => yamlLookup es k
  | _ => none

/-! Python string primitives, implemented over character lists so that they
evaluate by kernel reduction.  They model the CPython operations on the
character ranges these files use. -/

/-- Contiguous-sublist test over characters. -/
def listIsInfixOf (sub : List Char) : List Char → Bool
  | [] => sub.isEmpty
  | x :: xs => sub.isPrefixOf (x :: xs) || listIsInfixOf sub xs

/-- Substring test, used for Python `sub in s` on strings. -/
def strContainsSub (s sub : String) : Bool :=
  listIsInfixOf sub.data s.data

/-- Python `str.strip()`: drop whitespace from both ends. -/
def pyStrip (s : String) : String :=
  ⟨((s.data.dropWhile Char.isWhitespace).reverse.dropWhile Char.isWhitespace).reverse⟩

/-- Python `str.lower()`. -/
def pyLower (s : String) : String :=
  ⟨s.data.map Char.toLower⟩

/-- Python `str.startswith(p)`. -/
def pyStartsWith (s p : String) : Bool :=
  p.data.isPrefixOf s.data

/-- Python `s.count/char membership`: `c in s` for a single character. -/
def pyContainsChar (s : String) (c : Char) : Bool :=
  s.data.any (fun x => x == c)

/-- Helper for `pySplitOnChar`: accumulate the current piece. -/
def splitOnCharAux (c : Char) : List Char → List Char → List (List Char)
  | [], acc => [acc.reverse]
  | x :: xs, acc =>
    if x == c then acc.reverse :: splitOnCharAux c xs []
    else splitOnCharAux c xs (x :: acc)

/-- Python `s.split(c)` for a one-character separator (keeps empty pieces,
never returns an empty list). -/
def pySplitOnChar (c : Char) (s : String) : List String :=
  (splitOnCharAux c s.data []).map (fun cs => ⟨cs⟩)

/-- Python `str.replace(old, new)` for one-character arguments. -/
def pyReplaceChar (s : String) (old new : Char) : String :=
  ⟨s.data.map (fun c => if c == old then new else c)⟩

/-- Helper for `pySplitWs`: split on whitespace runs. -/
def splitWsAux : List Char → List Char → List String
  | [], acc => if acc.isEmpty then [] else [⟨acc.reverse⟩]
  | x :: xs, acc =>
    if Char.isWhitespace x then
      if acc.isEmpty then splitWsAux xs []
      else (⟨acc.reverse⟩ : String) :: splitWsAux xs []
    else splitWsAux xs (x :: acc)

/-- Python `str.split()` with no argument: split on whitespace runs,
producing no empty pieces. -/
def pySplitWs (s : String) : List String :=
  splitWsAux s.data []

/-! ## Record model (`app/models.py`) -/

/-- Character class `[a-z0-9]` of `USERNAME_PATTERN`. -/
def isLowerAlnum (c : Char) : Bool :=
  ('a' ≤ c && c ≤ 'z') || ('0' ≤ c && c ≤ '9')

/-- Character class `[a-z0-9._-]` of `USERNAME_PATTERN`. -/
def isUsernameInner (c : Char) : Bool :=
  isLowerAlnum c || c == '.' || c == '_' || c == '-'

/-- Matching against `USERNAME_PATTERN = ^[a-z0-9][a-z0-9._-]{1,30}[a-z0-9]$`
(`app/models.py:15`).  Because `[a-z0-9] ⊆ [a-z0-9._-]`, a string matches the
anchored regex iff its length is between 3 and 32 (one head character, 1–30
inner characters, one tail character), its first and last characters are in
`[a-z0-9]`, and every character in between is in `[a-z0-9._-]`. -/
def matchesUsernamePattern (s : String) : Bool :=
  let cs := s.toList
  decide (3 ≤ cs.length) && decide (cs.length ≤ 32) &&
    (match cs with
     | [] => false
     | c :: rest =>
       isLowerAlnum c &&
       (match rest.getLast? with
        | none => false
        | some cLast => isLowerAlnum cLast) &&
       rest.dropLast.all isUsernameInner)

/-- Validation failure (pydantic `ValidationError`), tagged by field. -/
inductive ValErr where
  | password
  | displayname
  | email
  | groups
  | username
deriving DecidableEq, Repr

/-- Validated single-user record (`UserConfig` in `app/models.py`). -/
structure UserConfig where
  password : String
  displayname : String
  email : String
  groups : List String
deriving DecidableEq, Repr

/-- Deduplication loop with a `seen` accumulator (the `seen` set loop in
`UserConfig.validate_groups`). -/
def dedupSeen (seen : List String) : List String → List String
  | [] => []
  | x :: xs =>
    if seen.contains x then dedupSeen seen xs
    else x :: dedupSeen (seen ++ [x]) xs

/-- Deduplication preserving first-seen order (the `seen` set loop in
`UserConfig.validate_groups`, and `list(dict.fromkeys(...))` in
`CreateUserRequest.validate_groups`; both compute the same list). -/
def dedupKeepOrder (l : List String) : List String :=
  dedupSeen [] l

/-- Group normalization (`validate_groups`): keep entries that are non-empty
and non-blank, strip and lowercase them, then deduplicate keeping first-seen
order. -/
def normalizeGroups (gs : List String) : List String :=
  dedupKeepOrder ((gs.filter (fun g => !(g == "") && !(pyStrip g == ""))).map
    (fun g => pyLower (pyStrip g)))

/-- Password-hash validator (`UserConfig.validate_password_hash`): non-empty,
at least 20 characters, bcrypt tag prefix. -/
def validate_password_hash (v : String) : Except ValErr String :=
  if v == "" || v.length < 20 then .error .password
  else if !(pyStartsWith v "$2a$" || pyStartsWith v "$2b$" || pyStartsWith v "$2y$") then
    .error .password
  else .ok v

/-- Part of the email after the last `@` (Python `v.split('@')[-1]`). -/
def emailDomainPart (v : String) : String :=
  (pySplitOnChar '@' v).getLastD ""

/-- Email validator (`UserConfig.validate_email`): strip, lowercase, require
non-empty, an `@`, and a `.` in the part after the last `@`. -/
def validate_email_field (v0 : String) : Except ValErr String :=
  let v := pyLower (pyStrip v0)
  if v == "" then .error .email
  else if !(pyContainsChar v '@') || !(pyContainsChar (emailDomainPart v) '.') then
    .error .email
  else .ok v

/-- Building a `UserConfig` (pydantic construction in `app/models.py`):
validators for `password`, `displayname` (Field 1–100 chars), `email` and
`groups`.  Pydantic reports all field errors together; here the first failed
field is reported, which agrees on success/failure. -/
def mkUserConfig (password displayname email : String) (groups : List String) :
    Except ValErr UserConfig :=
  match validate_password_hash password with
  | .error e => .error e
  | .ok p =>
    if displayname.length < 1 || displayname.length > 100 then .error .displayname
    else
      match validate_email_field email with
      | .error e => .error e
      | .ok e => .ok ⟨p, displayname, e, normalizeGroups groups⟩

/-- Validated creation request (`CreateUserRequest` in `app/models.py`). -/
structure CreateUserReq where
  username : String
  email : String
  displayname : String
  password : Option String
  groups : List String
deriving DecidableEq, Repr

/-- Building a `CreateUserRequest`: field length constraints
(`username` 2–32, `displayname` 1–100, optional `password` 12–128), then the
validators: username stripped/lowercased and matched against
`USERNAME_PATTERN`, email stripped/lowercased with `@`/domain-dot check,
groups normalized. -/
def mkCreateUserRequest (username email displayname : String)
    (password : Option String) (groups : List String) :
    Except ValErr CreateUserReq :=
  if username.length < 2 || username.length > 32 then .error .username
  else if displayname.length < 1 || displayname.length > 100 then .error .displayname
  else if (match password with
           | some pw => pw.length < 12 || pw.length > 128
           | none => false) then .error .password
  else
    let u := pyLower (pyStrip username)
    if !(matchesUsernamePattern u) then .error .username
    else
      let e := pyLower (pyStrip email)
      if !(pyContainsChar e '@') || !(pyContainsChar (emailDomainPart e) '.') then
        .error .email
      else .ok ⟨u, e, displayname, password, normalizeGroups groups⟩

/-- The in-memory user collection: username → record, in insertion order
(`UsersFile.users`, a Python dict). -/
abbrev UsersMap := List (String × UserConfig)

/-! ## Store reader and writer (`app/users_io.py`) -/

/-- What reading the store (or the Authelia config) yields: file absent,
present but not parseable as YAML, or a parsed document.  An empty file
parses to `null` (`yaml.safe_load("") = None`). -/
inductive FileRead where
  | absent
  | parseError
  | doc (d : Yaml)
deriving Repr

/-- File content at rest.  Equality of `FileContent` models byte-for-byte
equality of the file. -/
inductive FileContent where
  | unparseable
  | doc (d : Yaml)
deriving Repr

/-- Reading a stored `FileContent` back. -/
def readContent : Option FileContent → FileRead
  | none => .absent
  | some .unparseable => .parseError
  | some (.doc d) => .doc d

/-- Error raised out of `load_users`, by Python exception class:
`invalidYaml` for the `ValueError` wrapping a `yaml.YAMLError`,
`invalidFormat` for the `ValueError("Invalid users.yml format: ...")`,
`validationError` for a pydantic `ValidationError` from `UsersFile`,
`typeErr` for a `TypeError` escaping `'users' not in data` /
`data['users']` on a non-mapping document. -/
inductive LoadError where
  | invalidYaml
  | invalidFormat
  | validationError
  | typeErr
deriving DecidableEq, Repr

/-- Python `'users' in data` for the possible document shapes; raises
`TypeError` (modeled `.error ()`) when the document is not iterable. -/
def pythonContainsUsers : Yaml → Except Unit Bool
  | .map es => .ok ((yamlLookup es "users").isSome)
  | .list xs => .ok (xs.any (fun y => match y with | .str s => s == "users" | _ => false))
  | .str s => .ok (strContainsSub s "users")
  | _ => .error ()

/-- Python `data['users']`, evaluated only when `'users' in data` held;
raises `TypeError` (modeled `.error ()`) for string indexing of a list or
character indexing of a string. -/
def pythonIndexUsers : Yaml → Except Unit Yaml
  | .map es => .ok ((yamlLookup es "users").getD .null)
  | _ => .error ()

/-- Value of a required string field during `UserConfig` coercion. -/
def yamlStrField (es : List (String × Yaml)) (k : String) : Option String :=
  match yamlLookup es k with
  | some (.str s) => some s
  | _ => none

/-- Value of the `groups` field during `UserConfig` coercion: absent means
the empty default (`default_factory=list`); present must be a list of
strings. -/
def yamlGroupsField (es : List (String × Yaml)) : Option (List String) :=
  match yamlLookup es "groups" with
  | none => some []
  | some (.list xs) =>
      xs.mapM (fun y => match y with | .str s => some s | _ => none)
  | some _ => none

/-- Field names accepted by `UserConfig` (`extra = 'forbid'`). -/
def allowedUserKeys : List String := ["password", "displayname", "email", "groups"]

/-- Pydantic coercion of one stored record into a `UserConfig`: the value
must be a mapping with only the allowed keys, required string fields
present, and the field validators must pass.  `none` is a
`ValidationError`. -/
def parseUserConfig (y : Yaml) : Option UserConfig :=
  match y with
  | .map es =>
    if !(es.all (fun p => allowedUserKeys.contains p.1)) then none
    else
      match yamlStrField es "password", yamlStrField es "displayname",
            yamlStrField es "email", yamlGroupsField es with
      | some p, some d, some e, some gs =>
        match mkUserConfig p d e gs with
        | .ok cfg => some cfg
        | .error _ => none
      | _, _, _, _ => none
  | _ => none

/-- Coercion of the whole `users` mapping (`UsersFile` construction): every
key must match `USERNAME_PATTERN` (`UsersFile.validate_usernames`) and every
value must coerce to a `UserConfig`. -/
def parseUsersEntries : List (String × Yaml) → Option UsersMap
  | [] => some []
  | (u, y) :: rest =>
    if matchesUsernamePattern u then
      match parseUserConfig y with
      | some cfg =>
        match parseUsersEntries rest with
        | some us => some ((u, cfg) :: us)
        | none => none
      | none => none
    else none

/-- The loader `UsersFileHandler.load_users`: empty snapshot when the file is
absent or the document is falsy; `ValueError` on YAML parse failure or a
missing/invalid `users` key; pydantic validation of the records. -/
def load_users (fr : FileRead) : Except LoadError UsersMap :=
  match fr with
  | .absent => .ok []
  | .parseError => .error .invalidYaml
  | .doc d =>
    if !(pythonTruthy d) then .ok []
    else
      match pythonContainsUsers d with
      | .error _ => .error .typeErr
      | .ok false => .error .invalidFormat
      | .ok true =>
        match pythonIndexUsers d with
        | .error _ => .error .typeErr
        | .ok v =>
          match v with
          | .map es =>
            match parseUsersEntries es with
            | some users => .ok users
            | none => .error .validationError
          | _ => .error .invalidFormat

/-- Serialization of one record as written by `save_users`. -/
def serializeUserConfig (c : UserConfig) : Yaml :=
  .map [("password", .str c.password), ("displayname", .str c.displayname),
        ("email", .str c.email), ("groups", .list (c.groups.map Yaml.str))]

/-- Serialization of the whole store as written by `save_users`
(`data = {'users': {...}}`). -/
def serializeUsers (users : UsersMap) : Yaml :=
  .map [("users", .map (users.map (fun p => (p.1, serializeUserConfig p.2))))]

/-- The configuration knobs used by the embedded operations
(`app/config.py` `Settings`). -/
structure Settings where
  admin_group : String
  backup_keep : Nat
  session_ttl_minutes : Nat
deriving Repr

/-- Filesystem state seen by `UsersFileHandler`: the store file, whether a
temporary write file currently exists, and the backup directory (each backup
artifact represented by its mtime, as used for pruning). -/
structure FsState where
  target : Option FileContent
  tempExists : Bool
  backups : List Nat
deriving Repr

/-- Loading the store out of a filesystem state. -/
def loadUsersSt (st : FsState) : Except LoadError UsersMap :=
  load_users (readContent st.target)

/-- Failure injection point inside `save_users` after the backup step:
writing the YAML to the temporary file, the `fsync`, or the atomic
`os.replace`. -/
inductive FailStep where
  | writeTemp
  | fsyncStep
  | renameStep
deriving DecidableEq, Repr

/-- Error raised out of `save_users`: every failure is re-raised as
`IOError("Failed to save users file: ...")` (the spec's `PersistError`). -/
inductive SaveError where
  | persistError
deriving DecidableEq, Repr

/-- Descending sort by mtime (`sorted(..., key=mtime, reverse=True)`). -/
def sortDesc (l : List Nat) : List Nat :=
  l.insertionSort (· ≥ ·)

/-- Backup pruning `UsersFileHandler._prune_backups`: sort the backup
artifacts by modification time descending and delete everything beyond
`backup_keep`; what remains is the sorted head. -/
def prune_backups (cfg : Settings) (backups : List Nat) : List Nat :=
  (sortDesc backups).take cfg.backup_keep

/-- Atomic save `UsersFileHandler.save_users`.  Steps, as in the source:
1. if requested and the store exists, back it up (`_create_backup` at mtime
   `now`); 2. create a temporary file; write the serialized document, fsync,
   and atomically rename it over the target — on a failure injected at any of
   those steps the temporary file is unlinked and the error is re-raised as
   `IOError`; 5. on success prune old backups. -/
def save_users (cfg : Settings) (st : FsState) (now : Nat) (users : UsersMap)
    (create_backup : Bool) (fail : Option FailStep) :
    Except SaveError Unit × FsState :=
  let st1 := if create_backup && st.target.isSome
             then { st with backups := st.backups ++ [now] } else st
  let st2 := { st1 with tempExists := true }
  match fail with
  | some .writeTemp => (.error .persistError, { st2 with tempExists := false })
  | some .fsyncStep => (.error .persistError, { st2 with tempExists := false })
  | some .renameStep => (.error .persistError, { st2 with tempExists := false })
  | none =>
    let st3 := { st2 with tempExists := false,
                          target := some (.doc (serializeUsers users)) }
    let st4 := if create_backup
               then { st3 with backups := prune_backups cfg st3.backups } else st3
    (.ok (), st4)

/-- Error raised out of the user operations (`add_user` / `delete_user` and
the HTTP handlers that call them): `ValueError` subcases `conflict`,
`notFound`, `lastAdmin`; pydantic `validation`; propagated load failures. -/
inductive UserOpError where
  | loadFailed (e : LoadError)
  | conflict
  | notFound
  | lastAdmin
  | validation (e : ValErr)
deriving DecidableEq, Repr

/-- Adding a user, `UsersFileHandler.add_user`: load the current snapshot,
reject an existing username (`ValueError` → HTTP 409 conflict), validate the
new record through `UserConfig`, insert it (a new dict key appends in
insertion order) and save with backup. -/
def add_user (cfg : Settings) (st : FsState) (now : Nat)
    (username email displayname password_hash : String) (groups : List String) :
    Except UserOpError Unit × FsState :=
  match loadUsersSt st with
  | .error e => (.error (.loadFailed e), st)
  | .ok users =>
    if users.any (fun p => p.1 == username) then (.error .conflict, st)
    else
      match mkUserConfig password_hash displayname email groups with
      | .error v => (.error (.validation v), st)
      | .ok newUser =>
        let r := save_users cfg st now (users ++ [(username, newUser)]) true none
        (r.1.mapError (fun _ => .conflict) |>.map (fun _ => ()), r.2)

/-- Deleting a user, `UsersFileHandler.delete_user`: load, reject an unknown
username; if the record holds the admin group, count all holders and reject
when this is the last one (`LastAdminError`), performing no write; otherwise
remove the record and save with backup. -/
def delete_user (cfg : Settings) (st : FsState) (now : Nat) (username : String) :
    Except UserOpError Unit × FsState :=
  match loadUsersSt st with
  | .error e => (.error (.loadFailed e), st)
  | .ok users =>
    match users.find? (fun p => p.1 == username) with
    | none => (.error .notFound, st)
    | some entry =>
      if entry.2.groups.contains cfg.admin_group &&
         (users.filter (fun p => p.2.groups.contains cfg.admin_group)).length ≤ 1 then
        (.error .lastAdmin, st)
      else
        let r := save_users cfg st now (users.filter (fun p => !(p.1 == username)))
                   true none
        (r.1.mapError (fun _ => .notFound) |>.map (fun _ => ()), r.2)

/-- The creation endpoint (`app/app.py` `POST /users`): build and validate a
`CreateUserRequest` from the submitted fields, hash the password (the bcrypt
hash is a parameter here), then call `add_user` with the validated,
normalized fields. -/
def create_user (cfg : Settings) (st : FsState) (now : Nat)
    (username email displayname : String) (password : Option String)
    (password_hash : String) (groups : List String) :
    Except UserOpError Unit × FsState :=
  match mkCreateUserRequest username email displayname password groups with
  | .error e => (.error (.validation e), st)
  | .ok req =>
    add_user cfg st now req.username req.email req.displayname password_hash req.groups

/-! ## Change propagation (`app/restart.py`) -/

/-- Outcome of parsing a health-response body: JSON with an optional
`status` field, or a body that `response.json()` cannot parse. -/
inductive BodyParse where
  | json (statusField : Option String)
  | unparseable
deriving DecidableEq, Repr

/-- One poll of the liveness URL: a connection error
(`httpx.RequestError`) or an HTTP response. -/
inductive PollResult where
  | connError
  | httpResp (status : Nat) (body : BodyParse)
deriving DecidableEq, Repr

/-- Whether one poll terminates the loop successfully (`poll_health` body):
HTTP 200 with a JSON `status` among `UP`/`OK`/`healthy`, or HTTP 200 with an
unparseable body.  Everything else keeps polling. -/
def isHealthy : PollResult → Bool
  | .connError => false
  | .httpResp status body =>
    status == 200 &&
      (match body with
       | .json (some s) => s == "UP" || s == "OK" || s == "healthy"
       | .json none => false
       | .unparseable => true)

/-- Result of the polling loop: success at iteration `n`, or
`HealthCheckTimeout`. -/
inductive PollOutcome where
  | healthyAt (n : Nat)
  | timedOut
deriving DecidableEq, Repr

/-- The polling loop of `poll_health`, one iteration per second of elapsed
time: iteration `n` first checks the deadline (`elapsed > timeout`, i.e.
`n > timeout`, here expressed as exhaustion of the fuel `timeout + 1 - n`)
and raises `HealthCheckTimeout`; otherwise it polls once and either returns
or sleeps a second and continues. -/
def poll_health_loop (polls : Nat → PollResult) : Nat → Nat → PollOutcome
  | 0, _ => .timedOut
  | fuel + 1, n => if isHealthy (polls n) then .healthyAt n
                   else poll_health_loop polls fuel (n + 1)

/-- Polling `poll_health`: the deadline is computed at loop entry
(`start_time`), elapsed time advances one second per iteration, and the
deadline is re-checked every iteration, so at most `timeout + 1` polls
happen. -/
def poll_health (timeout : Nat) (polls : Nat → PollResult) : PollOutcome :=
  poll_health_loop polls (timeout + 1) 0

/-- Timeout message raised by `poll_health` and surfaced by
`restart_authelia`. -/
def healthTimeoutMsg (timeout : Nat) : String :=
  s!"Health check timed out after {timeout} seconds. Authelia may still be starting. Check logs and try again."

/-- The restart branch `restart_authelia`: run the restart command; a
non-zero exit raises `RestartError` (caught, surfaced as a failed outcome
with the captured output); on exit 0, poll the health endpoint, mapping
success and `HealthCheckTimeout` to a `(succeeded, message)` outcome —
never an uncaught crash. -/
def restart_authelia (returncode : Int) (errOutput : String)
    (timeout : Nat) (polls : Nat → PollResult) : Bool × String :=
  if returncode != 0 then
    (false, "Restart command failed: " ++ errOutput)
  else
    match poll_health timeout polls with
    | .healthyAt _ => (true, "Authelia restarted successfully and is healthy")
    | .timedOut => (false, healthTimeoutMsg timeout)

/-- The two propagation branches of `apply_changes`. -/
inductive Branch where
  | restart
  | waitForReload
deriving DecidableEq, Repr

/-- Branch selection in `apply_changes`: a forced restart wins regardless of
watch mode; otherwise watch-mode detection runs inside a `try` — a detected
`True` selects the wait-for-reload branch, a detected `False` selects
restart, and any exception escaping the decision logic (modeled by the
`Except` argument) falls back to restart. -/
def apply_changes_branch (force_restart : Bool) (detection : Except Unit Bool) :
    Branch :=
  if force_restart then .restart
  else
    match detection with
    | .ok true => .waitForReload
    | .ok false => .restart
    | .error _ => .restart

/-! ## Watch-mode detection (`app/authelia_config.py`) -/

/-- The detector `detect_watch_mode` / `is_watch_mode_enabled` on a fresh
handler: a missing file or YAML parse error resolves to `false`
(`load_config` returns `False`); navigation uses `dict.get` with `{}`
defaults and an `if not ...` truthiness guard at each level, inside a
`try/except` that turns any error (e.g. `.get` on a non-mapping) into
`false`; the final `watch` value goes through `bool(...)`. -/
def is_watch_mode_enabled (fr : FileRead) : Bool :=
  match fr with
  | .absent => false
  | .parseError => false
  | .doc d =>
    match d with
    | .map es =>
      let ab := (yamlLookup es "authentication_backend").getD (.map [])
      if !(pythonTruthy ab) then false
      else
        match ab with
        | .map abEs =>
          let fc := (yamlLookup abEs "file").getD (.map [])
          if !(pythonTruthy fc) then false
          else
            match fc with
            | .map fcEs => pythonTruthy ((yamlLookup fcEs "watch").getD (.bool false))
            | _ => false
        | _ => false
    | _ => false

/-- The helper `detect_watch_mode(config_path)`: a fresh handler, so no
cached value is involved. -/
def detect_watch_mode (fr : FileRead) : Bool :=
  is_watch_mode_enabled fr

/-! ## Access guard (`app/security.py`) -/

/-- An `itsdangerous` signed token as seen by the verifier: its payload, its
age in seconds, and whether the signature verifies.  `loads(t, max_age)`
returns the payload iff the signature is valid and the token is not older
than `max_age`; otherwise it raises `BadSignature` (of which
`SignatureExpired` is a subclass). -/
structure SignedToken where
  value : String
  age : Nat
  sigValid : Bool
deriving DecidableEq, Repr

/-- `URLSafeTimedSerializer.loads` with a `max_age`. -/
def serializerLoads (t : SignedToken) (maxAge : Nat) : Option String :=
  if t.sigValid && t.age ≤ maxAge then some t.value else none

/-- The parts of an inbound request inspected by `SecurityMiddleware`.
Cookie and token slots are `none` when absent or empty. -/
structure GuardRequest where
  method : String
  path : String
  forwardedGroups : String
  sessionCookie : Option SignedToken
  csrfCookie : Option SignedToken
  csrfHeader : Option SignedToken
  contentType : String
  csrfForm : Option SignedToken
deriving Repr

/-- State-changing methods guarded by RBAC and CSRF. -/
def isStateChanging (method : String) : Bool :=
  ["POST", "DELETE", "PUT", "PATCH"].contains method

/-- Paths exempt from RBAC and CSRF. -/
def isExemptPath (path : String) : Bool :=
  ["/health", "/watch-mode-status"].contains path

/-- Group-header splitting in `_check_rbac`: commas become spaces, the
header is split on whitespace, entries are stripped and blanks dropped. -/
def splitGroups (s : String) : List String :=
  ((pySplitWs (pyReplaceChar s ',' ' ')).map pyStrip).filter (fun g => !(g == ""))

/-- RBAC check `_check_rbac`: an empty `X-Forwarded-Groups` header fails;
otherwise the configured admin group must occur among the split groups. -/
def check_rbac (cfg : Settings) (req : GuardRequest) : Bool :=
  if req.forwardedGroups == "" then false
  else (splitGroups req.forwardedGroups).contains cfg.admin_group

/-- CSRF check `_check_csrf` (double-submit): the `csrf` cookie must be
present; the submitted token comes from the `X-CSRF-Token` header, else — for
form content types — from the `csrf_token` form field; both tokens must
deserialize with `max_age=3600` and carry equal payloads. -/
def check_csrf (req : GuardRequest) : Bool :=
  match req.csrfCookie with
  | none => false
  | some cookieTok =>
    let submitted :=
      match req.csrfHeader with
      | some t => some t
      | none =>
        if strContainsSub req.contentType "multipart/form-data" ||
           strContainsSub req.contentType "application/x-www-form-urlencoded" then
          req.csrfForm
        else none
    match submitted with
    | none => false
    | some subTok =>
      match serializerLoads cookieTok 3600, serializerLoads subTok 3600 with
      | some cv, some sv => cv == sv
      | _, _ => false

/-- Session check `_check_session`: a missing session cookie is a fresh,
valid visit; a present cookie must deserialize within the session TTL. -/
def check_session (cfg : Settings) (req : GuardRequest) : Bool :=
  match req.sessionCookie with
  | none => true
  | some t => (serializerLoads t (cfg.session_ttl_minutes * 60)).isSome

/-- How `SecurityMiddleware.dispatch` resolves a request before any handler
runs. -/
inductive DispatchOutcome where
  | sessionExpired
  | forbidden
  | csrfRejected
  | passed
deriving DecidableEq, Repr

/-- The guard `SecurityMiddleware.dispatch`, in source order: first the
session TTL check (HTTP 401, skipped for `/health` and tolerated for `/`),
then the RBAC check for state-changing methods on non-exempt paths
(HTTP 403), then the CSRF check for the same requests (HTTP 400), else the
request reaches its handler. -/
def dispatch (cfg : Settings) (req : GuardRequest) : DispatchOutcome :=
  if !(req.path == "/health") && !(check_session cfg req) && !(req.path == "/") then
    .sessionExpired
  else if isStateChanging req.method && !(isExemptPath req.path) &&
          !(check_rbac cfg req) then
    .forbidden
  else if isStateChanging req.method && !(isExemptPath req.path) &&
          !(check_csrf req) then
    .csrfRejected
  else .passed

/-! ## Iterated writes (for backup-retention reasoning) -/

/-- State after `n` successful `save_users` calls with backups enabled, the
`i`-th write observing backup mtime `times i` (mtimes strictly increase
across writes). -/
def saveSeq (cfg : Settings) (users : UsersMap) (times : Nat → Nat)
    (st0 : FsState) : Nat → FsState
  | 0 => st0
  | n + 1 => (save_users cfg (saveSeq cfg users times st0 n) (times n) users true none).2

/-- The backup mtimes kept after `n` writes under retention `keep`: each
write adds the newest mtime in front and truncates to `keep`. -/
def keptBackups (times : Nat → Nat) (keep : Nat) : Nat → List Nat
  | 0 => []
  | n + 1 => (times n :: keptBackups times keep n).take keep

/-! ## Concrete fixtures for witnesses and counterexamples -/

/-- Settings fixture: admin group `admins`, keep 3 backups, 30-minute
sessions. -/
def cfgFix : Settings := ⟨"admins", 3, 30⟩

/-- Settings fixture with retention 2. -/
def cfgKeep2 : Settings := ⟨"admins", 2, 30⟩

/-- A well-formed bcrypt hash value (29 characters, `$2b$` tag). -/
def hashFix : String := "$2b$12$abcdefghijklmnopqrstuv"

/-- Record fixture: `alice`, sole admin. -/
def aliceCfg : UserConfig := ⟨hashFix, "Alice", "alice@example.com", ["admins"]⟩

/-- Record fixture: `bob`, a second admin. -/
def bobCfg : UserConfig := ⟨hashFix, "Bob", "bob@example.com", ["admins"]⟩

/-- Store with `alice` as the only (admin) record. -/
def usersOneAdmin : UsersMap := [("alice", aliceCfg)]

/-- Store with two admin records. -/
def usersTwoAdmins : UsersMap := [("alice", aliceCfg), ("bob", bobCfg)]

/-- Filesystem fixture holding the one-admin store. -/
def stOneAdmin : FsState := ⟨some (.doc (serializeUsers usersOneAdmin)), false, []⟩

/-- Filesystem fixture holding the two-admin store. -/
def stTwoAdmins : FsState := ⟨some (.doc (serializeUsers usersTwoAdmins)), false, []⟩

/-- Filesystem fixture with some existing target file and no backups. -/
def stW : FsState := ⟨some (.doc .null), false, []⟩

/-- Request fixture: state-changing request without the admin group and with
a session cookie whose signature does not verify. -/
def badSessionReq : GuardRequest :=
  { method := "POST", path := "/users", forwardedGroups := "",
    sessionCookie := some ⟨"x", 0, false⟩, csrfCookie := none,
    csrfHeader := none, contentType := "", csrfForm := none }

/-- Request fixture: state-changing request without the admin group and no
session cookie. -/
def noGroupReq : GuardRequest :=
  { method := "POST", path := "/users", forwardedGroups := "users,devs",
    sessionCookie := none, csrfCookie := none,
    csrfHeader := none, contentType := "", csrfForm := none }

/-- Request fixture: state-changing request carrying the admin group but no
CSRF cookie or token at all. -/
def adminNoCsrfReq : GuardRequest :=
  { method := "POST", path := "/users", forwardedGroups := "users,admins",
    sessionCookie := none, csrfCookie := none,
    csrfHeader := none, contentType := "", csrfForm := none }

/-! ## Helper lemmas -/

/-- Decidable equality of `Except` results, for evaluating witnesses. -/
instance exceptDecEq {ε α : Type} [DecidableEq ε] [DecidableEq α] :
    DecidableEq (Except ε α) := fun a b =>
  match a, b with
  | .ok x, .ok y =>
    if h : x = y then isTrue (by rw [h])
    else isFalse (fun hc => h (by cases hc; rfl))
  | .error x, .error y =>
    if h : x = y then isTrue (by rw [h])
    else isFalse (fun hc => h (by cases hc; rfl))
  | .ok _, .error _ => isFalse (fun hc => by cases hc)
  | .error _, .ok _ => isFalse (fun hc => by cases hc)

/-- A successful lookup means the entry list is non-empty. -/
theorem yamlLookup_some_nonempty {es : List (String × Yaml)} {k : String}
    {v : Yaml} (h : yamlLookup es k = some v) : es.isEmpty = false := by
  cases es with
  | nil => simp [yamlLookup, List.find?] at h
  | cons a l => rfl

/-! ## Claim C4 -/

/-- C4: propagation decision table — `apply_changes` selects the
wait-for-reload branch iff the force-restart flag is false and watch mode was
detected as enabled; the three other flag combinations select the restart
branch, and an exception inside the detection logic always resolves to the
restart branch. -/
theorem c4_apply_changes_decision_table :
    (∀ f w : Bool,
       apply_changes_branch f (.ok w) = .waitForReload ↔ f = false ∧ w = true) ∧
    (∀ f : Bool, apply_changes_branch f (.error ()) = .restart) := by
  decide

/-! ## Claim C8 -/

/-- C8: the username validator, driven by
`USERNAME_PATTERN = ^[a-z0-9][a-z0-9._-]{1,30}[a-z0-9]$`, rejects the
two-character string "ab" even though both characters are lowercase
alphanumerics: the regex admits only 3–32 characters, contradicting the
claimed 2–32 range (and the code's own error message, `Field(min_length=2)`
and the `test_valid_usernames` unit test, which all state a 2-character
minimum). -/
theorem c8_two_char_username_rejected :
    isLowerAlnum 'a' = true ∧ isLowerAlnum 'b' = true ∧
    "ab".length = 2 ∧
    matchesUsernamePattern "ab" = false ∧
    mkCreateUserRequest "ab" "test@example.com" "Test User"
      (some "SecurePassword123!") [] = .error .username := by
  refine ⟨rfl, rfl, rfl, rfl, ?_⟩
  decide

/-! ## Claim C9 -/

/-- C9: watch-mode detection is total and fail-closed — a missing
configuration file or a YAML parse error yields `false`, and the detector
reports `true` exactly when the document carries the key path
`authentication_backend.file.watch` through nested mappings with a truthy
value at the end; in particular a key missing at any level of the path
yields `false`, never an exception. -/
theorem c9_watch_mode_detection_fail_closed :
    detect_watch_mode .absent = false ∧
    detect_watch_mode .parseError = false ∧
    (∀ d : Yaml, detect_watch_mode (.doc d) = true ↔
       ∃ ab fc w, yamlGet d "authentication_backend" = some ab ∧
         yamlGet ab "file" = some fc ∧ yamlGet fc "watch" = some w ∧
         pythonTruthy w = true) := by
  refine ⟨rfl, rfl, fun d => ?_⟩
  constructor
  · intro h
    cases d with
    | map es =>
      rcases hab : yamlLookup es "authentication_backend" with _ | ab
      · simp [detect_watch_mode, is_watch_mode_enabled, hab, pythonTruthy] at h
      · cases ab with
        | map abEs =>
          rcases hfc : yamlLookup abEs "file" with _ | fc
          · simp [detect_watch_mode, is_watch_mode_enabled, hab, hfc,
              pythonTruthy] at h
          · cases fc with
            | map fcEs =>
              rcases hw : yamlLookup fcEs "watch" with _ | w
              · simp [detect_watch_mode, is_watch_mode_enabled, hab, hfc, hw,
                  pythonTruthy] at h
              · by_cases htw : pythonTruthy w = true
                · exact ⟨.map abEs, .map fcEs, w, by simp [yamlGet, hab],
                    by simp [yamlGet, hfc], by simp [yamlGet, hw], htw⟩
                · rw [Bool.not_eq_true] at htw
                  simp [detect_watch_mode, is_watch_mode_enabled, hab, hfc, hw,
                    htw] at h
            | null =>
              simp [detect_watch_mode, is_watch_mode_enabled, hab, hfc,
                pythonTruthy] at h
            | bool b =>
              simp [detect_watch_mode, is_watch_mode_enabled, hab, hfc,
                pythonTruthy] at h
            | int n =>
              simp [detect_watch_mode, is_watch_mode_enabled, hab, hfc,
                pythonTruthy] at h
            | str s =>
              simp [detect_watch_mode, is_watch_mode_enabled, hab, hfc,
                pythonTruthy] at h
            | list xs =>
              simp [detect_watch_mode, is_watch_mode_enabled, hab, hfc,
                pythonTruthy] at h
        | null =>
          simp [detect_watch_mode, is_watch_mode_enabled, hab, pythonTruthy] at h
        | bool b =>
          simp [detect_watch_mode, is_watch_mode_enabled, hab, pythonTruthy] at h
        | int n =>
          simp [detect_watch_mode, is_watch_mode_enabled, hab, pythonTruthy] at h
        | str s =>
          simp [detect_watch_mode, is_watch_mode_enabled, hab, pythonTruthy] at h
        | list xs =>
          simp [detect_watch_mode, is_watch_mode_enabled, hab, pythonTruthy] at h
    | null => simp [detect_watch_mode, is_watch_mode_enabled] at h
    | bool b => simp [detect_watch_mode, is_watch_mode_enabled] at h
    | int n => simp [detect_watch_mode, is_watch_mode_enabled] at h
    | str s => simp [detect_watch_mode, is_watch_mode_enabled] at h
    | list xs => simp [detect_watch_mode, is_watch_mode_enabled] at h
  · rintro ⟨ab, fc, w, hab, hfc, hw, htw⟩
    cases d with
    | map es =>
      simp only [yamlGet] at hab
      cases ab with
      | map abEs =>
        simp only [yamlGet] at hfc
        cases fc with
        | map fcEs =>
          simp only [yamlGet] at hw
          have habne : pythonTruthy (.map abEs) = true := by
            simp [pythonTruthy, yamlLookup_some_nonempty hfc]
          have hfcne : pythonTruthy (.map fcEs) = true := by
            simp [pythonTruthy, yamlLookup_some_nonempty hw]
          simp [detect_watch_mode, is_watch_mode_enabled, hab, hfc, hw,
            habne, hfcne, htw]
        | null => simp [yamlGet] at hw
        | bool b => simp [yamlGet] at hw
        | int n => simp [yamlGet] at hw
        | str s => simp [yamlGet] at hw
        | list xs => simp [yamlGet] at hw
      | null => simp [yamlGet] at hfc
      | bool b => simp [yamlGet] at hfc
      | int n => simp [yamlGet] at hfc
      | str s => simp [yamlGet] at hfc
      | list xs => simp [yamlGet] at hfc
    | null => simp [yamlGet] at hab
    | bool b => simp [yamlGet] at hab
    | int n => simp [yamlGet] at hab
    | str s => simp [yamlGet] at hab
    | list xs => simp [yamlGet] at hab

/-! ## Claim C1 -/

/-- C1: atomic persistence — if `save_users` fails at any step after the
backup (temporary-file write, fsync, or rename), the temporary file is
removed, the store file's content is identical to its pre-write content, a
subsequent load returns the pre-write snapshot, and the error propagates to
the caller as the `IOError` (`PersistError`). -/
theorem c1_atomic_save_failure :
    ∀ (cfg : Settings) (st : FsState) (now : Nat) (users : UsersMap)
      (f : FailStep),
      (save_users cfg st now users true (some f)).1 = .error .persistError ∧
      (save_users cfg st now users true (some f)).2.target = st.target ∧
      (save_users cfg st now users true (some f)).2.tempExists = false ∧
      loadUsersSt (save_users cfg st now users true (some f)).2 = loadUsersSt st := by
  intro cfg st now users f
  cases f <;>
    refine ⟨rfl, ?_, rfl, ?_⟩ <;>
    simp [save_users, loadUsersSt, readContent, apply_ite]

/-! ## Claim C10 -/

/-- C10: loading a store file that exists but is empty (its YAML parses to
`null`) — or more generally parses to a falsy document — yields the empty
snapshot, exactly like an absent file, rather than a format error; the
`ValueError` format errors arise only for a truthy document whose `users`
key is missing or not a mapping, and the pydantic validation error arises
only for a present `users` mapping containing an invalid record or
malformed username key. -/
theorem c10_load_empty_store :
    load_users .absent = .ok [] ∧
    load_users (.doc .null) = .ok [] ∧
    (∀ d : Yaml, pythonTruthy d = false → load_users (.doc d) = .ok []) ∧
    (∀ d : Yaml, load_users (.doc d) = .error .invalidFormat →
      pythonTruthy d = true ∧
      (pythonContainsUsers d = .ok false ∨
       ∃ v, pythonIndexUsers d = .ok v ∧ ∀ es, v ≠ .map es)) ∧
    (∀ d : Yaml, load_users (.doc d) = .error .validationError →
      pythonTruthy d = true ∧
      ∃ es, pythonIndexUsers d = .ok (.map es) ∧ parseUsersEntries es = none) := by
  refine ⟨rfl, rfl, fun d h => by simp [load_users, h], fun d h => ?_, fun d h => ?_⟩
  · simp only [load_users] at h
    split at h
    · cases h
    · rename_i htr
      have ht : pythonTruthy d = true := by
        revert htr; cases pythonTruthy d <;> simp
      refine ⟨ht, ?_⟩
      split at h
      · cases h
      · rename_i heq
        exact Or.inl heq
      · rename_i heq
        split at h
        · cases h
        · rename_i v hidx
          split at h
          · split at h
            · cases h
            · cases h
          · rename_i hne
            exact Or.inr ⟨_, hidx, fun es hv => hne es hv⟩
  · simp only [load_users] at h
    split at h
    · cases h
    · rename_i htr
      have ht : pythonTruthy d = true := by
        revert htr; cases pythonTruthy d <;> simp
      refine ⟨ht, ?_⟩
      split at h
      · cases h
      · cases h
      · rename_i heq
        split at h
        · cases h
        · rename_i v hidx
          split at h
          · rename_i es
            split at h
            · cases h
            · rename_i hp
              exact ⟨es, hidx, hp⟩
          · cases h

/-- Witness for C10: a present file whose document is the empty string (a
falsy document) loads as the empty snapshot. -/
theorem c10_witness : load_users (.doc (.str "")) = .ok [] := by
  have h := c10_load_empty_store
  exact h.2.2.1 (.str "") (by decide)

/-! ## Inversion lemmas for the validators -/

/-- A successful password-hash validation returns its input unchanged. -/
theorem validate_password_hash_ok {v w : String}
    (h : validate_password_hash v = .ok w) : w = v := by
  unfold validate_password_hash at h
  split at h
  · cases h
  · split at h
    · cases h
    · injection h with h2; exact h2.symm

/-- A successful email validation returns the stripped, lowercased input. -/
theorem validate_email_field_ok {v0 w : String}
    (h : validate_email_field v0 = .ok w) : w = pyLower (pyStrip v0) := by
  unfold validate_email_field at h
  dsimp only at h
  split at h
  · cases h
  · split at h
    · cases h
    · injection h with h2; exact h2.symm

/-- Field content of a successfully constructed `UserConfig`. -/
theorem mkUserConfig_ok {p d e : String} {gs : List String} {c : UserConfig}
    (h : mkUserConfig p d e gs = .ok c) :
    c.password = p ∧ c.displayname = d ∧ c.email = pyLower (pyStrip e) ∧
    c.groups = normalizeGroups gs := by
  unfold mkUserConfig at h
  split at h
  · cases h
  · rename_i p2 hp
    split at h
    · cases h
    · split at h
      · cases h
      · rename_i e2 he
        cases h
        have hw := validate_password_hash_ok hp
        have he2 := validate_email_field_ok he
        subst hw
        subst he2
        exact ⟨rfl, rfl, rfl, rfl⟩

/-- Field content of a successfully constructed `CreateUserRequest`. -/
theorem mkCreateUserRequest_ok {u e d : String} {pw : Option String}
    {gs : List String} {r : CreateUserReq}
    (h : mkCreateUserRequest u e d pw gs = .ok r) :
    r.username = pyLower (pyStrip u) ∧ r.email = pyLower (pyStrip e) ∧
    r.displayname = d ∧ r.password = pw ∧ r.groups = normalizeGroups gs := by
  unfold mkCreateUserRequest at h
  dsimp only at h
  split at h
  · cases h
  · split at h
    · cases h
    · split at h
      · cases h
      · split at h
        · cases h
        · split at h
          · cases h
          · cases h
            exact ⟨rfl, rfl, rfl, rfl, rfl⟩

/-! ## Claim C2 -/

/-- C2: last-admin invariant — when the record being deleted holds the
privileged group and it is the only holder in the snapshot, `delete_user`
fails with `LastAdminError` and performs no write (the filesystem state is
returned unchanged); when two or more records hold the group, deleting one
holder succeeds, removing exactly that record and persisting the rest. -/
theorem c2_last_admin_invariant :
    ∀ (cfg : Settings) (st : FsState) (now : Nat) (users : UsersMap)
      (username : String) (entry : String × UserConfig),
      loadUsersSt st = .ok users →
      users.find? (fun p => p.1 == username) = some entry →
      entry.2.groups.contains cfg.admin_group = true →
      ((users.filter (fun p => p.2.groups.contains cfg.admin_group)).length = 1 →
        delete_user cfg st now username = (.error .lastAdmin, st)) ∧
      (2 ≤ (users.filter (fun p => p.2.groups.contains cfg.admin_group)).length →
        (delete_user cfg st now username).1 = .ok () ∧
        (delete_user cfg st now username).2.target =
          some (.doc (serializeUsers (users.filter (fun p => !(p.1 == username)))))) := by
  intro cfg st now users username entry hload hfind hadmin
  constructor
  · intro hcount
    simp only [delete_user, hload, hfind, hadmin, hcount]
    simp
  · intro hcount
    simp only [delete_user, hload, hfind]
    split
    · rename_i hcond
      exfalso
      rcases (Bool.and_eq_true _ _).mp hcond with ⟨_, hdec⟩
      have := of_decide_eq_true hdec
      omega
    · exact ⟨rfl, rfl⟩

/-- Witness for C2: with two admin records, deleting one succeeds and
persists the snapshot without it. -/
theorem c2_witness :
    (delete_user cfgFix stTwoAdmins 7 "alice").1 = .ok () ∧
    (delete_user cfgFix stTwoAdmins 7 "alice").2.target =
      some (.doc (serializeUsers (usersTwoAdmins.filter (fun p => !(p.1 == "alice"))))) := by
  have h := c2_last_admin_invariant cfgFix stTwoAdmins 7 usersTwoAdmins "alice"
    ("alice", aliceCfg) (by decide) (by decide) (by decide)
  exact h.2 (by decide)

/-! ## Claim C3 -/

/-- C3 (amended): creation uniqueness — `add_user` (behind the creation
endpoint) fails with the conflict `ValueError` exactly when the requested
(normalized) username already exists, and on success the stored record is
exactly the normalized record (stripped/lowercased username and email,
normalized deduplicated groups, the supplied hash and display name),
appended to the snapshot.  Duplicate emails, however, are NOT rejected by
the creation path (see the counterexample): `validate_no_duplicate_emails`
exists but is never invoked when creating a user. -/
theorem c3_create_user_uniqueness_amended :
    ∀ (cfg : Settings) (st : FsState) (now : Nat) (users : UsersMap)
      (username email displayname : String) (password : Option String)
      (password_hash : String) (groups : List String) (req : CreateUserReq),
      loadUsersSt st = .ok users →
      mkCreateUserRequest username email displayname password groups = .ok req →
      (req.username = pyLower (pyStrip username) ∧
       req.email = pyLower (pyStrip email) ∧
       req.groups = normalizeGroups groups) ∧
      (users.any (fun p => p.1 == req.username) = true →
        create_user cfg st now username email displayname password password_hash groups
          = (.error .conflict, st)) ∧
      (∀ newUser : UserConfig,
        users.any (fun p => p.1 == req.username) = false →
        mkUserConfig password_hash req.displayname req.email req.groups = .ok newUser →
        newUser.password = password_hash ∧
        newUser.email = pyLower (pyStrip req.email) ∧
        newUser.groups = normalizeGroups req.groups ∧
        (create_user cfg st now username email displayname password password_hash
            groups).1 = .ok () ∧
        (create_user cfg st now username email displayname password password_hash
            groups).2.target
          = some (.doc (serializeUsers (users ++ [(req.username, newUser)])))) := by
  intro cfg st now users username email displayname password password_hash groups req
    hload hreq
  obtain ⟨hu, he, _, _, hg⟩ := mkCreateUserRequest_ok hreq
  refine ⟨⟨hu, he, hg⟩, ?_, ?_⟩
  · intro hany
    simp only [create_user, hreq, add_user, hload, hany]
    rfl
  · intro newUser hany hmk
    obtain ⟨hnp, _, hne, hng⟩ := mkUserConfig_ok hmk
    refine ⟨hnp, hne, hng, ?_, ?_⟩ <;>
      simp only [create_user, hreq, add_user, hload, hany, hmk] <;> rfl

/-- Counterexample for C3: with `alice`/`alice@example.com` already stored,
a creation request for a fresh username `bob` whose email equals Alice's
case-insensitively is accepted (the write succeeds and stores Bob with the
duplicate email). -/
theorem c3_counterexample_duplicate_email_accepted :
    (create_user cfgFix stOneAdmin 3 "bob" "Alice@Example.com" "Bob"
        (some "CorrectHorse1!") hashFix ["users"]).1 = .ok () ∧
    usersOneAdmin.any
      (fun p => pyLower (pyStrip p.2.email) == pyLower (pyStrip "Alice@Example.com"))
      = true ∧
    (create_user cfgFix stOneAdmin 3 "bob" "Alice@Example.com" "Bob"
        (some "CorrectHorse1!") hashFix ["users"]).2.target
      = some (.doc (serializeUsers (usersOneAdmin ++
          [("bob", ⟨hashFix, "Bob", "alice@example.com", ["users"]⟩)]))) := by
  refine ⟨?_, ?_, ?_⟩ <;> rfl

/-- Witness for C3: creating a fresh user `carol` on the one-record store
succeeds. -/
theorem c3_witness :
    (create_user cfgFix stOneAdmin 4 "Carol" "carol@example.com" "Carol" none
        hashFix ["users"]).1 = .ok () := by
  have h := c3_create_user_uniqueness_amended cfgFix stOneAdmin 4 usersOneAdmin
    "Carol" "carol@example.com" "Carol" none hashFix ["users"]
    ⟨"carol", "carol@example.com", "Carol", none, ["users"]⟩ (by decide) (by decide)
  exact (h.2.2 ⟨hashFix, "Carol", "carol@example.com", ["users"]⟩ (by decide)
    (by decide)).2.2.2.1

/-! ## Claim C5 -/

/-- C5 (amended): access-guard precedence — provided the session check
passes (no session cookie, or a cookie valid within the TTL) or the path is
the root `/`, a state-changing request on a non-exempt path without the
privileged group in its forwarded-groups header is rejected with the
forbidden (403) outcome regardless of CSRF token validity, and such a
request carrying the group but failing the double-submit CSRF check
(missing, mismatched, unparseable or expired cookie/token pair) is rejected
with the CSRF outcome.  Without that proviso the claim fails: the session
check runs first and an expired/malformed session cookie yields the 401
session outcome instead (see the counterexample). -/
theorem c5_guard_precedence_amended :
    ∀ (cfg : Settings) (req : GuardRequest),
      isStateChanging req.method = true →
      isExemptPath req.path = false →
      (check_session cfg req = true ∨ req.path = "/") →
      (check_rbac cfg req = false → dispatch cfg req = .forbidden) ∧
      (check_rbac cfg req = true → check_csrf req = false →
        dispatch cfg req = .csrfRejected) := by
  intro cfg req hsc hex hses
  have hb1 : (req.path == "/health") = false := by
    refine beq_eq_false_iff_ne.mpr ?_
    intro hp
    rw [hp] at hex
    exact absurd hex (by decide)
  rcases hses with hs | hroot
  · constructor
    · intro hrbac
      simp [dispatch, hb1, hs, hsc, hex, hrbac]
    · intro hrbac hcsrf
      simp [dispatch, hb1, hs, hsc, hex, hrbac, hcsrf]
  · have hexr : isExemptPath "/" = false := by rw [← hroot]; exact hex
    constructor
    · intro hrbac
      simp [dispatch, hroot, hsc, hexr, hrbac]
    · intro hrbac hcsrf
      simp [dispatch, hroot, hsc, hexr, hrbac, hcsrf]

/-- Counterexample for C5: a POST to `/users` without the admin group but
with a session cookie whose signature fails is rejected with the
session-expired (401) outcome, not the claimed forbidden (403) outcome. -/
theorem c5_counterexample_session_precedes_rbac :
    isStateChanging badSessionReq.method = true ∧
    isExemptPath badSessionReq.path = false ∧
    check_rbac cfgFix badSessionReq = false ∧
    dispatch cfgFix badSessionReq = .sessionExpired ∧
    ¬ dispatch cfgFix badSessionReq = .forbidden := by
  decide

/-- Witness for C5: with no session cookie, the group-less request gets 403
and the admin request without CSRF material gets the CSRF outcome. -/
theorem c5_witness :
    dispatch cfgFix noGroupReq = .forbidden ∧
    dispatch cfgFix adminNoCsrfReq = .csrfRejected := by
  have h1 := c5_guard_precedence_amended cfgFix noGroupReq (by decide) (by decide)
    (Or.inl (by decide))
  have h2 := c5_guard_precedence_amended cfgFix adminNoCsrfReq (by decide) (by decide)
    (Or.inl (by decide))
  exact ⟨h1.1 (by decide), h2.2 (by decide) (by decide)⟩

/-! ## Claim C6 -/

/-- Characterization of the polling loop timing out: it times out iff no
poll within the remaining fuel is healthy. -/
theorem poll_health_loop_timedOut_iff (polls : Nat → PollResult) :
    ∀ (fuel n : Nat), poll_health_loop polls fuel n = .timedOut ↔
      ∀ m, n ≤ m → m < n + fuel → isHealthy (polls m) = false := by
  intro fuel
  induction fuel with
  | zero =>
    intro n
    constructor
    · intro _ m h1 h2
      omega
    · intro _
      rfl
  | succ fuel ih =>
    intro n
    by_cases hh : isHealthy (polls n) = true
    · constructor
      · intro h
        rw [show poll_health_loop polls (fuel + 1) n
            = if isHealthy (polls n) then .healthyAt n
              else poll_health_loop polls fuel (n + 1) from rfl, if_pos hh] at h
        cases h
      · intro hall
        exact absurd (hall n (Nat.le_refl n) (by omega)) (by simp [hh])
    · have hhf : isHealthy (polls n) = false := by
        revert hh; cases isHealthy (polls n) <;> simp
      constructor
      · intro h m h1 h2
        rw [show poll_health_loop polls (fuel + 1) n
            = if isHealthy (polls n) then .healthyAt n
              else poll_health_loop polls fuel (n + 1) from rfl, if_neg hh] at h
        rcases Nat.eq_or_lt_of_le h1 with he | hlt
        · rw [← he]; exact hhf
        · exact (ih (n + 1)).mp h m hlt (by omega)
      · intro hall
        rw [show poll_health_loop polls (fuel + 1) n
            = if isHealthy (polls n) then .healthyAt n
              else poll_health_loop polls fuel (n + 1) from rfl, if_neg hh]
        exact (ih (n + 1)).mpr (fun m h1 h2 => hall m (by omega) (by omega))

/-- Characterization of the polling loop succeeding at iteration `k`: the
first healthy poll within the fuel window. -/
theorem poll_health_loop_healthyAt_iff (polls : Nat → PollResult) :
    ∀ (fuel n k : Nat), poll_health_loop polls fuel n = .healthyAt k ↔
      (n ≤ k ∧ k < n + fuel ∧ isHealthy (polls k) = true ∧
       ∀ m, n ≤ m → m < k → isHealthy (polls m) = false) := by
  intro fuel
  induction fuel with
  | zero =>
    intro n k
    constructor
    · intro h
      cases h
    · rintro ⟨h1, h2, -, -⟩
      omega
  | succ fuel ih =>
    intro n k
    by_cases hh : isHealthy (polls n) = true
    · rw [show poll_health_loop polls (fuel + 1) n
          = if isHealthy (polls n) then .healthyAt n
            else poll_health_loop polls fuel (n + 1) from rfl, if_pos hh]
      constructor
      · intro h
        injection h with he
        subst he
        exact ⟨Nat.le_refl n, by omega, hh, fun m h1 h2 => by omega⟩
      · rintro ⟨h1, h2, h3, h4⟩
        rcases Nat.eq_or_lt_of_le h1 with he | hlt
        · rw [he]
        · exact absurd (h4 n (Nat.le_refl n) hlt) (by simp [hh])
    · have hhf : isHealthy (polls n) = false := by
        revert hh; cases isHealthy (polls n) <;> simp
      rw [show poll_health_loop polls (fuel + 1) n
          = if isHealthy (polls n) then .healthyAt n
            else poll_health_loop polls fuel (n + 1) from rfl, if_neg hh,
          ih (n + 1) k]
      constructor
      · rintro ⟨h1, h2, h3, h4⟩
        refine ⟨by omega, by omega, h3, fun m hm1 hm2 => ?_⟩
        rcases Nat.eq_or_lt_of_le hm1 with he | hlt
        · rw [← he]; exact hhf
        · exact h4 m (by omega) hm2
      · rintro ⟨h1, h2, h3, h4⟩
        have hkn : ¬ n = k := by
          intro he
          rw [← he] at h3
          rw [h3] at hhf
          cases hhf
        exact ⟨by omega, by omega, h3, fun m hm1 hm2 => h4 m (by omega) hm2⟩

/-- C6: health-poll termination and semantics — the polling loop always
terminates: it times out exactly when no poll up to the deadline reports
healthy, it returns success at `k` exactly when poll `k` is the first
healthy one within the deadline, connection errors and non-200 responses
never count as healthy (never terminate the loop early), and when the loop
times out after a successful restart command the caller surfaces
`PropagationOutcome{succeeded:false}` with the timeout message rather than a
crash. -/
theorem c6_health_poll_termination :
    ∀ (timeout : Nat) (polls : Nat → PollResult),
      (poll_health timeout polls = .timedOut ↔
        ∀ n, n ≤ timeout → isHealthy (polls n) = false) ∧
      (∀ k, poll_health timeout polls = .healthyAt k ↔
        (k ≤ timeout ∧ isHealthy (polls k) = true ∧
         ∀ m, m < k → isHealthy (polls m) = false)) ∧
      isHealthy .connError = false ∧
      (∀ (status : Nat) (body : BodyParse), ¬ status = 200 →
        isHealthy (.httpResp status body) = false) ∧
      (∀ err : String, poll_health timeout polls = .timedOut →
        restart_authelia 0 err timeout polls = (false, healthTimeoutMsg timeout)) := by
  intro timeout polls
  refine ⟨?_, ?_, rfl, ?_, ?_⟩
  · rw [poll_health, poll_health_loop_timedOut_iff]
    constructor
    · intro h n hn
      exact h n (by omega) (by omega)
    · intro h m h1 h2
      exact h m (by omega)
  · intro k
    rw [poll_health, poll_health_loop_healthyAt_iff]
    constructor
    · rintro ⟨h1, h2, h3, h4⟩
      exact ⟨by omega, h3, fun m hm => h4 m (by omega) hm⟩
    · rintro ⟨h1, h2, h3⟩
      exact ⟨by omega, by omega, h2, fun m hm1 hm2 => h3 m hm2⟩
  · intro status body hst
    have hb : (status == 200) = false := beq_eq_false_iff_ne.mpr hst
    simp [isHealthy, hb]
  · intro err h
    simp [restart_authelia, h]

/-- Witness for C6: one second of connection errors against a 1-second
timeout yields a failed-but-clean propagation outcome. -/
theorem c6_witness :
    restart_authelia 0 "" 1 (fun _ => .connError) = (false, healthTimeoutMsg 1) := by
  have h := c6_health_poll_termination 1 (fun _ => .connError)
  exact h.2.2.2.2 "" (by decide)

/-! ## Claim C7 -/

/-- Sorting an already-descending list with a strictly greater element
appended puts that element in front and keeps the rest unchanged. -/
theorem sortDesc_append_max {l : List Nat} {m : Nat}
    (hs : l.Sorted (· ≥ ·)) (hm : ∀ x ∈ l, x < m) :
    sortDesc (l ++ [m]) = m :: l := by
  have hperm : (sortDesc (l ++ [m])).Perm (m :: l) :=
    (List.perm_insertionSort _ _).trans (List.perm_append_comm.trans (by simp))
  have hs1 : (sortDesc (l ++ [m])).Sorted (· ≥ ·) := List.sorted_insertionSort _ _
  have hs2 : (m :: l).Sorted (· ≥ ·) := by
    rw [List.sorted_cons]
    exact ⟨fun b hb => Nat.le_of_lt (hm b hb), hs⟩
  exact List.eq_of_perm_of_sorted hperm hs1 hs2

/-- Every kept backup mtime stems from an earlier write. -/
theorem keptBackups_mem {times : Nat → Nat} {keep : Nat} :
    ∀ n x, x ∈ keptBackups times keep n → ∃ i, i < n ∧ x = times i := by
  intro n
  induction n with
  | zero => intro x hx; cases hx
  | succ n ih =>
    intro x hx
    have hx2 : x ∈ times n :: keptBackups times keep n :=
      (List.take_sublist _ _).subset hx
    rcases List.mem_cons.mp hx2 with he | hm
    · exact ⟨n, Nat.lt_succ_self n, he⟩
    · rcases ih x hm with ⟨i, hi, he⟩
      exact ⟨i, by omega, he⟩

/-- The kept backups are in descending mtime order. -/
theorem keptBackups_sorted {times : Nat → Nat} (ht : StrictMono times) (keep : Nat) :
    ∀ n, (keptBackups times keep n).Sorted (· ≥ ·) := by
  intro n
  induction n with
  | zero => exact List.sorted_nil
  | succ n ih =>
    have hcons : (times n :: keptBackups times keep n).Sorted (· ≥ ·) := by
      rw [List.sorted_cons]
      refine ⟨fun b hb => ?_, ih⟩
      rcases keptBackups_mem n b hb with ⟨i, hi, he⟩
      rw [he]
      exact Nat.le_of_lt (ht hi)
    exact List.Pairwise.sublist (List.take_sublist _ _) hcons

/-- Invariant of the write sequence: the store file stays present and the
backup directory holds exactly the kept backups. -/
theorem saveSeq_backups (cfg : Settings) (users : UsersMap) {times : Nat → Nat}
    {st0 : FsState} (ht : StrictMono times)
    (h0 : st0.target.isSome = true) (hb : st0.backups = []) :
    ∀ n, (saveSeq cfg users times st0 n).target.isSome = true ∧
      (saveSeq cfg users times st0 n).backups = keptBackups times cfg.backup_keep n := by
  intro n
  induction n with
  | zero => exact ⟨h0, hb⟩
  | succ n ih =>
    rcases ih with ⟨hsome, hback⟩
    constructor
    · rfl
    · have hred : (save_users cfg (saveSeq cfg users times st0 n) (times n) users
          true none).2.backups
          = prune_backups cfg ((saveSeq cfg users times st0 n).backups ++ [times n]) := by
        simp [save_users, hsome]
      have hm : ∀ x ∈ keptBackups times cfg.backup_keep n, x < times n := by
        intro x hx
        rcases keptBackups_mem n x hx with ⟨i, hi, he⟩
        rw [he]
        exact ht hi
      have hs := keptBackups_sorted ht cfg.backup_keep n
      show (save_users cfg (saveSeq cfg users times st0 n) (times n) users
          true none).2.backups = keptBackups times cfg.backup_keep (n + 1)
      rw [hred, hback]
      show (sortDesc (keptBackups times cfg.backup_keep n ++ [times n])).take
          cfg.backup_keep = keptBackups times cfg.backup_keep (n + 1)
      rw [sortDesc_append_max hs hm]
      rfl

/-- Closed form for the kept backups: the most recent `min n keep` write
mtimes, most recent first. -/
theorem keptBackups_closed (times : Nat → Nat) (keep : Nat) :
    ∀ n, keptBackups times keep n
      = ((List.range' (n - min n keep) (min n keep)).map times).reverse := by
  intro n
  induction n with
  | zero => simp [keptBackups]
  | succ n ih =>
    by_cases h : n < keep
    · have hm1 : min n keep = n := Nat.min_eq_left (Nat.le_of_lt h)
      have hm2 : min (n + 1) keep = n + 1 := Nat.min_eq_left h
      rw [show keptBackups times keep (n + 1)
          = (times n :: keptBackups times keep n).take keep from rfl, ih, hm1, hm2]
      rw [Nat.sub_self, Nat.sub_self]
      rw [List.take_of_length_le (by
        simp only [List.length_cons, List.length_reverse, List.length_map,
          List.length_range']
        omega)]
      rw [List.range'_concat]
      simp
    · have hke : keep ≤ n := Nat.le_of_not_lt h
      have hm1 : min n keep = keep := Nat.min_eq_right hke
      have hm2 : min (n + 1) keep = keep := Nat.min_eq_right (by omega)
      rw [show keptBackups times keep (n + 1)
          = (times n :: keptBackups times keep n).take keep from rfl, ih, hm1, hm2]
      cases keep with
      | zero => simp
      | succ kp =>
        rw [List.take_succ_cons]
        have hsplit : List.range' (n - (kp + 1)) (kp + 1)
            = List.range' (n - (kp + 1)) 1 ++ List.range' (n - (kp + 1) + 1) kp := by
          have hap := List.range'_append (n - (kp + 1)) 1 kp 1
          simp only [Nat.mul_one] at hap
          exact hap.symm
        rw [hsplit, List.map_append, List.reverse_append]
        have hAlen : (((List.range' (n - (kp + 1) + 1) kp).map times).reverse).length
            = kp := by simp
        rw [List.take_left' hAlen]
        rw [show n - (kp + 1) + 1 = n + 1 - (kp + 1) from by omega]
        rw [List.range'_concat]
        rw [show n + 1 - (kp + 1) + 1 * kp = n from by omega]
        simp

/-- C7: backup retention — starting from an existing store with an empty
backup directory, after `N` successful writes with backups enabled, strictly
increasing backup mtimes and retention `K < N`, exactly `K` backup artifacts
remain, and they are the `K` most recent mtimes (`times (N-K) .. times (N-1)`,
newest first): pruning sorts by mtime descending and deletes everything past
the first `K`. -/
theorem c7_backup_retention :
    ∀ (cfg : Settings) (users : UsersMap) (times : Nat → Nat) (st0 : FsState)
      (N : Nat),
      st0.target.isSome = true → st0.backups = [] → StrictMono times →
      cfg.backup_keep < N →
      (saveSeq cfg users times st0 N).backups
        = ((List.range' (N - cfg.backup_keep) cfg.backup_keep).map times).reverse ∧
      (saveSeq cfg users times st0 N).backups.length = cfg.backup_keep := by
  intro cfg users times st0 N h0 hb ht hk
  have h1 := (saveSeq_backups cfg users ht h0 hb N).2
  have h2 := keptBackups_closed times cfg.backup_keep N
  have hmin : min N cfg.backup_keep = cfg.backup_keep :=
    Nat.min_eq_right (Nat.le_of_lt hk)
  rw [h1, h2, hmin]
  exact ⟨rfl, by simp⟩

/-- Witness for C7: three writes with retention 2 keep exactly the two most
recent backup mtimes, newest first. -/
theorem c7_witness :
    (saveSeq cfgKeep2 [] (fun i => i) stW 3).backups
      = ((List.range' 1 2).map (fun i => i)).reverse ∧
    (saveSeq cfgKeep2 [] (fun i => i) stW 3).backups.length = 2 := by
  have h := c7_backup_retention cfgKeep2 [] (fun i => i) stW 3 (by decide) (by decide)
    (fun a b hab => hab) (by decide)
  exact h
